import Mathlib

/-!
# Verification of the PDF Editor's Document Transformation Pipeline

Shallow embedding of the transformation core of the repository
(`packages/shared/src/pdf-operations.ts` and the `pdf:compress` IPC handler of
`packages/electron-app/src/main/index.ts`), together with proofs of the
specification's claims about it.

Modelling conventions:
* A loaded PDF document (`PdfDoc`) is modelled structurally: a list of pages
  plus the metadata fields the code reads or writes.  Byte-level
  serialisation is abstracted away: `PDFDocument.load` on well-formed bytes
  keeps the structural content — except that loading with the
  `updateMetadata` option true additionally runs pdf-lib's
  `updateInfoDict()` touch-up, modelled where a claim depends on it
  (`compressPdf`'s `updateMetadata: level < 50`) — and `save` returns the
  document itself (its byte size, where size accounting needs it, is
  supplied by an explicit environment, since the encoder's output length is
  not determined by the structure).
* JavaScript numbers used as page indices are modelled as `Int` (they may be
  negative); geometric coordinates are modelled as `ℚ`.
* pdf-lib's `copyPages` fails (throws) on an out-of-range index; this is
  modelled with `Except String`.  JavaScript array indexing `pages[i]`
  yields `undefined` out of range, modelled with `Option`.
* External effects (the Ghostscript process, the filesystem, pdf-lib's
  fallible form flattening) are modelled by explicit environment records
  describing the outcome of each effectful step.
-/

namespace PdfEditor

/-! ## Data model (`packages/shared/src/types.ts`) -/

/-- `Rect` of `types.ts`: a rectangle in the top-left-origin, y-down input
coordinate space. -/
structure Rect where
  x : ℚ
  y : ℚ
  width : ℚ
  height : ℚ
  deriving Repr, DecidableEq

/-- Normalized RGB colour channels in [0,1], the result of `hexToRgb`. -/
structure RgbColor where
  r : ℚ
  g : ℚ
  b : ℚ
  deriving Repr, DecidableEq

/-- `AnnotationType` of `types.ts`. -/
inductive AnnotationType where
  | highlight
  | underline
  | strikeout
  | freeform
  | text
  | rectangle
  | arrow
  deriving Repr, DecidableEq

/-- `Annotation` of `types.ts` (fields not read by the compositor, such as
timestamps and freeform points, are kept only where a claim needs them). -/
structure Annotation where
  id : String
  type : AnnotationType
  pageIndex : Int
  rect : Rect
  color : String
  opacity : ℚ
  content : Option String := none
  deriving Repr, DecidableEq

/-- One page-content drawing operation produced by the annotation
compositor, mirroring the pdf-lib calls `drawRectangle`, `drawLine` and
`drawText` with the argument values the code passes. -/
inductive DrawOp where
  | rectFill (x y width height : ℚ) (color : RgbColor) (opacity : ℚ)
  | line (startX startY endX endY : ℚ) (thickness : ℚ) (color : RgbColor) (opacity : ℚ)
  | rectOutline (x y width height : ℚ) (borderColor : RgbColor) (borderWidth : ℚ) (opacity : ℚ)
  | text (content : String) (x y : ℚ) (size : ℚ) (color : RgbColor) (opacity : ℚ)
  deriving Repr, DecidableEq

/-- A page of a loaded document: geometry plus accumulated page content. -/
structure Page where
  width : ℚ
  height : ℚ
  rotation : Int
  content : List DrawOp := []
  deriving Repr, DecidableEq

/-- A loaded PDF document: its page list plus the metadata the compression
pass reads and writes.  `formFieldCount` models `getForm().getFields().length`;
`formFlattened` records that `form.flatten()` ran. -/
structure PdfDoc where
  pages : List Page
  title : Option String := none
  author : Option String := none
  subject : Option String := none
  keywords : List String := []
  producer : Option String := none
  creator : Option String := none
  formFieldCount : Nat := 0
  formFlattened : Bool := false
  deriving Repr, DecidableEq

/-- `PDFDocument.create()`: a fresh empty document. -/
def PdfDoc.create : PdfDoc := { pages := [] }

/-- `getPageCount()`. -/
def PdfDoc.pageCount (doc : PdfDoc) : Nat := doc.pages.length

/-- JavaScript array indexing `pages[i]` with a possibly negative `Int`
index: `undefined` (`none`) when out of range. -/
def jsIndex (pages : List Page) (i : Int) : Option Page :=
  if 0 ≤ i then pages.get? i.toNat else none

/-! ## Page Set Operations (`packages/shared/src/pdf-operations.ts`) -/

/-- pdf-lib's `copyPages(srcDoc, indices)`: copies the addressed pages in
order; an out-of-range index makes the whole call throw. -/
def copyPages (src : PdfDoc) : List Int → Except String (List Page)
  | [] => .ok []
  | i :: rest =>
    match jsIndex src.pages i with
    | some p => (copyPages src rest).map (fun ps => p :: ps)
    | none => .error "page index out of range"

/-- `MergeSource` of `types.ts`.  The `bytes` field holds raw PDF bytes in
the code; here it holds the document those bytes load to (byte-level parsing
is abstracted, see the module header). -/
structure MergeSource where
  id : String
  fileName : String
  bytes : PdfDoc
  pageCount : Nat
  selectedPages : List Int
  deriving Repr, DecidableEq

/-- `MergeResult` of `types.ts`. -/
structure MergeResult where
  success : Bool
  bytes : Option PdfDoc := none
  error : Option String := none
  deriving Repr, DecidableEq

/-- The page selection `mergePdfs` resolves for one source:
`source.selectedPages.length > 0 ? source.selectedPages
 : Array.from({ length: sourcePdf.getPageCount() }, (_, i) => i)`. -/
def resolveSelection (source : MergeSource) : List Int :=
  if source.selectedPages.length > 0 then source.selectedPages
  else (List.range source.bytes.pageCount).map Int.ofNat

/-- The page-accumulating loop of `mergePdfs`: for each source in order,
copy the resolved selection and append to the destination. -/
def mergePdfsCore : List MergeSource → Except String (List Page)
  | [] => .ok []
  | source :: rest => do
    let copied ← copyPages source.bytes (resolveSelection source)
    let restPages ← mergePdfsCore rest
    pure (copied ++ restPages)

/-- `mergePdfs` of `pdf-operations.ts`: builds a fresh document from the
sources; any thrown error is caught and returned as a failed
`MergeResult`. -/
def mergePdfs (sources : List MergeSource) : MergeResult :=
  match mergePdfsCore sources with
  | .ok pages => { success := true, bytes := some { PdfDoc.create with pages := pages } }
  | .error e => { success := false, error := some e }

/-- `reorderPages` of `pdf-operations.ts`: copies `newOrder` into a fresh
document; errors propagate to the caller. -/
def reorderPages (sourcePdf : PdfDoc) (newOrder : List Int) : Except String PdfDoc :=
  (copyPages sourcePdf newOrder).map (fun ps => { PdfDoc.create with pages := ps })

/-- `extractPages` of `pdf-operations.ts`: copies `pageIndices` into a fresh
document; errors propagate to the caller. -/
def extractPages (sourcePdf : PdfDoc) (pageIndices : List Int) : Except String PdfDoc :=
  (copyPages sourcePdf pageIndices).map (fun ps => { PdfDoc.create with pages := ps })

/-- The keep-list computed by `deletePages`:
`Array.from({length: pageCount}, (_, i) => i).filter(i => !pageIndicesToDelete.includes(i))`. -/
def pagesToKeep (pageCount : Nat) (pageIndicesToDelete : List Int) : List Int :=
  ((List.range pageCount).map Int.ofNat).filter (fun i => !(pageIndicesToDelete.contains i))

/-- `deletePages` of `pdf-operations.ts`: extract the complement of the
deletion set. -/
def deletePages (sourcePdf : PdfDoc) (pageIndicesToDelete : List Int) : Except String PdfDoc :=
  extractPages sourcePdf (pagesToKeep sourcePdf.pageCount pageIndicesToDelete)

/-! ## Annotation compositor (`pdf-operations.ts`) -/

/-- Modelled from the spec: `hexToRgb` lives in `utils.ts`, which is not
among the given sources; the spec says colour "is supplied as a hex string
and must be converted to normalized (0–1) RGB channels before drawing".
No claim inspects the numeric channels; only the fact that the same
conversion feeds every drawing call matters. -/
def hexDigitVal (c : Char) : Nat :=
  if '0' ≤ c ∧ c ≤ '9' then c.toNat - '0'.toNat
  else if 'a' ≤ c ∧ c ≤ 'f' then c.toNat - 'a'.toNat + 10
  else if 'A' ≤ c ∧ c ≤ 'F' then c.toNat - 'A'.toNat + 10
  else 0

/-- One two-digit hex channel, normalized to [0,1]. -/
def hexPair (hi lo : Char) : ℚ :=
  ((hexDigitVal hi * 16 + hexDigitVal lo : Nat) : ℚ) / 255

/-- Modelled from the spec: hex string to normalized RGB (see
`hexDigitVal`). -/
def hexToRgb (hex : String) : RgbColor :=
  match (if hex.startsWith "#" then hex.drop 1 else hex).toList with
  | [r1, r2, g1, g2, b1, b2] => ⟨hexPair r1 r2, hexPair g1 g2, hexPair b1 b2⟩
  | _ => ⟨0, 0, 0⟩

/-- `drawHighlight` of `pdf-operations.ts`: a filled rectangle at
`(rect.x, pageHeight - rect.y - rect.height)`. -/
def drawHighlight (page : Page) (a : Annotation) (pageHeight : ℚ) (color : RgbColor) : Page :=
  { page with content := page.content ++
      [DrawOp.rectFill a.rect.x (pageHeight - a.rect.y - a.rect.height)
        a.rect.width a.rect.height color a.opacity] }

/-- `drawUnderline` of `pdf-operations.ts`: a horizontal line of thickness 2
at the converted bottom edge. -/
def drawUnderline (page : Page) (a : Annotation) (pageHeight : ℚ) (color : RgbColor) : Page :=
  let y := pageHeight - a.rect.y - a.rect.height
  { page with content := page.content ++
      [DrawOp.line a.rect.x y (a.rect.x + a.rect.width) y 2 color a.opacity] }

/-- `drawStrikeout` of `pdf-operations.ts`: a horizontal line of thickness 2
through the vertical midpoint. -/
def drawStrikeout (page : Page) (a : Annotation) (pageHeight : ℚ) (color : RgbColor) : Page :=
  let y := pageHeight - a.rect.y - a.rect.height / 2
  { page with content := page.content ++
      [DrawOp.line a.rect.x y (a.rect.x + a.rect.width) y 2 color a.opacity] }

/-- `drawRectangle` of `pdf-operations.ts`: an outlined rectangle with
border width 2. -/
def drawRectangle (page : Page) (a : Annotation) (pageHeight : ℚ) (color : RgbColor) : Page :=
  { page with content := page.content ++
      [DrawOp.rectOutline a.rect.x (pageHeight - a.rect.y - a.rect.height)
        a.rect.width a.rect.height color 2 a.opacity] }

/-- `drawTextAnnotation` of `pdf-operations.ts`: draws the text content at
size 12; `if (!annotation.content) return` makes a missing or empty content
a no-op (JavaScript falsiness). -/
def drawTextAnnotation (page : Page) (a : Annotation) (pageHeight : ℚ) (color : RgbColor) : Page :=
  match a.content with
  | none => page
  | some content =>
    if content = "" then page
    else
      { page with content := page.content ++
          [DrawOp.text content a.rect.x (pageHeight - a.rect.y - a.rect.height)
            12 color a.opacity] }

/-- One iteration of the `applyAnnotations` loop: resolve the target page
(`pages[annotation.pageIndex]`), skip when it is `undefined`
(`if (!page) continue`), otherwise dispatch on the type; `freeform` and
`arrow` have no case in the switch and leave the page unchanged. -/
def applyAnnotationStep (doc : PdfDoc) (a : Annotation) : PdfDoc :=
  match jsIndex doc.pages a.pageIndex with
  | none => doc
  | some page =>
    let pageHeight := page.height
    let color := hexToRgb a.color
    let page' :=
      match a.type with
      | .highlight => drawHighlight page a pageHeight color
      | .underline => drawUnderline page a pageHeight color
      | .strikeout => drawStrikeout page a pageHeight color
      | .rectangle => drawRectangle page a pageHeight color
      | .text => drawTextAnnotation page a pageHeight color
      | _ => page
    { doc with pages := doc.pages.set a.pageIndex.toNat page' }

/-- `applyAnnotations` of `pdf-operations.ts`: bake every annotation of the
list, in order, into the document. -/
def applyAnnotations (doc : PdfDoc) (annotations : List Annotation) : PdfDoc :=
  annotations.foldl applyAnnotationStep doc

/-! ## Compression (`compressPdf` and the `pdf:compress` IPC handler) -/

/-- JavaScript `Math.round`: round half toward positive infinity. -/
def jsRound (q : ℚ) : Int := ⌊q + 1 / 2⌋

/-- `CompressionLevel` of `types.ts` is the TypeScript union `25 | 50 | 75`;
modelled as `Nat`, with theorems restricting to those values where the claim
depends on it. -/
abbrev CompressionLevel := Nat

/-- A JavaScript thrown value: either an `Error` instance carrying a
message string, or any other value (`error instanceof Error` false). -/
inductive JsThrown where
  | error (message : String)
  | other
  deriving Repr, DecidableEq

/-- The `error instanceof Error ? error.message : fallback` pattern used by
every catch block of the code. -/
def JsThrown.messageOr (e : JsThrown) (fallback : String) : String :=
  match e with
  | .error m => m
  | .other => fallback

/-- `CompressionResult` of `types.ts`; the `bytes` payload type is a
parameter because the in-process pass yields a structural document while the
external pass yields opaque bytes (modelled by their length). -/
structure CompressionResult (β : Type) where
  success : Bool
  bytes : Option β := none
  originalSize : Nat
  compressedSize : Nat
  reductionPercent : Int
  error : Option String := none
  deriving Repr, DecidableEq

/-- Outcomes of the pdf-lib effects inside `compressPdf` that the document
structure does not determine: whether `PDFDocument.load` rejects (malformed
bytes), whether `getForm()` / `form.flatten()` throws, and the byte length
`save` produces. -/
structure PdfLibEnv where
  loadError : Option JsThrown := none
  flattenError : Option JsThrown := none
  savedSize : Nat := 0
  deriving Repr, DecidableEq

/-- The `level >= 50` branch of `compressPdf`: `setTitle('')`,
`setAuthor('')`, `setSubject('')`, `setKeywords([])`, `setProducer('')`,
`setCreator('')`. -/
def stripMetadata (doc : PdfDoc) : PdfDoc :=
  { doc with
    title := some ""
    author := some ""
    subject := some ""
    keywords := []
    producer := some ""
    creator := some "" }

/-- The `level >= 75` branch of `compressPdf`: flatten the interactive form
when it has fields; a thrown `getForm()` / `flatten()` is caught and the
document continues unchanged. -/
def flattenFormsStep (doc : PdfDoc) (env : PdfLibEnv) : PdfDoc :=
  match env.flattenError with
  | some _ => doc
  | none =>
    if doc.formFieldCount > 0 then
      { doc with formFieldCount := 0, formFlattened := true }
    else doc

/-- The producer/creator signature string pdf-lib's `updateInfoDict()`
writes. -/
def pdfLibSignature : String := "pdf-lib (https://github.com/Hopding/pdf-lib)"

/-- pdf-lib's load-time `updateInfoDict()` pass, run whenever a document is
loaded with the `updateMetadata` option true: it overwrites the Producer
with the library signature and fills in the Creator only when absent.  (It
also refreshes the ModificationDate and fills a missing CreationDate with
the wall clock; the structural model carries no date fields and no claim
reads them.) -/
def updateInfoDict (doc : PdfDoc) : PdfDoc :=
  { doc with
    producer := some pdfLibSignature
    creator := if doc.creator = none then some pdfLibSignature else doc.creator }

/-- `compressPdf` of `pdf-operations.ts` (the in-process pass).  `load` on
well-formed bytes keeps the structural content, except that the
`updateMetadata: level < 50` load option makes pdf-lib run
`updateInfoDict()` below level 50, overwriting the producer (and filling a
missing creator) before the save.  `inputSize` is `pdfBytes.length`. -/
def compressPdf (input : PdfDoc) (inputSize : Nat) (level : CompressionLevel)
    (env : PdfLibEnv) : CompressionResult PdfDoc :=
  let originalSize := inputSize
  match env.loadError with
  | some e =>
    { success := false
      originalSize := originalSize
      compressedSize := originalSize
      reductionPercent := 0
      error := some (e.messageOr "Unknown error during compression") }
  | none =>
    let pdfDoc := if level < 50 then updateInfoDict input else input
    let pdfDoc := if 50 ≤ level then stripMetadata pdfDoc else pdfDoc
    let pdfDoc := if 75 ≤ level then flattenFormsStep pdfDoc env else pdfDoc
    let compressedSize := env.savedSize
    let reductionPercent := jsRound ((1 - (compressedSize : ℚ) / (originalSize : ℚ)) * 100)
    { success := true
      bytes := some pdfDoc
      originalSize := originalSize
      compressedSize := compressedSize
      reductionPercent := max 0 reductionPercent }

/-- Outcomes of the effectful steps of the `pdf:compress` IPC handler of
`electron-app/src/main/index.ts`: `runError` is a throw anywhere up to and
including the Ghostscript invocation (temp-dir creation, input write,
`execFile` of a missing binary or a non-zero exit), `readError` a throw
while reading back the output file, and `outputSize` the output file's byte
length when both succeed.  The probe loop over candidate installation paths
catches its own failures and only selects which executable is invoked, so it
is absorbed into `runError`. -/
structure GsEnv where
  runError : Option JsThrown := none
  readError : Option JsThrown := none
  outputSize : Nat := 0
  deriving Repr, DecidableEq

/-- The `pdf:compress` IPC handler (external Ghostscript pass).
`inputSize` is `bytes.length`; the `finally` temp cleanup never alters the
returned result and is not modelled. -/
def compressHandler (inputSize : Nat) (level : CompressionLevel) (env : GsEnv) :
    CompressionResult Nat :=
  let originalSize := inputSize
  let failure : JsThrown → CompressionResult Nat := fun e =>
    { success := false
      originalSize := originalSize
      compressedSize := originalSize
      reductionPercent := 0
      error := some (e.messageOr "Failed to compress PDF. Make sure Ghostscript is installed.") }
  match env.runError with
  | some e => failure e
  | none =>
    match env.readError with
    | some e => failure e
    | none =>
      let compressedSize := env.outputSize
      let reductionPercent := jsRound ((1 - (compressedSize : ℚ) / (originalSize : ℚ)) * 100)
      { success := true
        bytes := some env.outputSize
        originalSize := originalSize
        compressedSize := compressedSize
        reductionPercent := max 0 reductionPercent }

/-! ## Concrete instances for witnesses and sanity checks -/

/-- A blank page of height `h` (used to build small concrete documents). -/
def pg (h : ℚ) : Page := { width := 612, height := h, rotation := 0 }

/-- A concrete three-page document. -/
def doc3 : PdfDoc := { pages := [pg 1, pg 2, pg 3] }

/-- A merge source whose selection addresses a page its two-page document
does not have. -/
def srcBad : MergeSource :=
  { id := "bad"
    fileName := "bad.pdf"
    bytes := { pages := [pg 1, pg 2] }
    pageCount := 2
    selectedPages := [5] }

/-- The spec's merge scenario source `A(selectedPages=[0,2])` over a
three-page document. -/
def srcA : MergeSource :=
  { id := "A"
    fileName := "a.pdf"
    bytes := { pages := [pg 1, pg 2, pg 3] }
    pageCount := 3
    selectedPages := [0, 2] }

/-- The spec's merge scenario source `B(selectedPages=[1])` over a two-page
document. -/
def srcB : MergeSource :=
  { id := "B"
    fileName := "b.pdf"
    bytes := { pages := [pg 4, pg 5] }
    pageCount := 2
    selectedPages := [1] }

/-- A Letter-height page with empty content. -/
def letterPage : Page := { width := 612, height := 792, rotation := 0 }

/-- The spec's coordinate round-trip example: a highlight with
rect `{x:10, y:20, width:100, height:30}`. -/
def demoHighlight : Annotation :=
  { id := "a1"
    type := .highlight
    pageIndex := 0
    rect := { x := 10, y := 20, width := 100, height := 30 }
    color := "#ffff00"
    opacity := 1 / 2 }

example :
    extractPages doc3 [2, 0] = .ok { PdfDoc.create with pages := [pg 3, pg 1] } := rfl

example : (mergePdfs [srcBad]).success = false := rfl

example : deletePages doc3 [1] = .ok { PdfDoc.create with pages := [pg 1, pg 3] } := rfl

/-! ## Helper lemmas -/

theorem jsIndex_eq_none {pages : List Page} {i : Int}
    (h : ¬(0 ≤ i ∧ i < (pages.length : Int))) : jsIndex pages i = none := by
  unfold jsIndex
  by_cases h0 : 0 ≤ i
  · rw [if_pos h0]
    apply List.get?_eq_none.mpr
    omega
  · rw [if_neg h0]

theorem jsIndex_some_valid {pages : List Page} {i : Int} {p : Page}
    (h : jsIndex pages i = some p) : 0 ≤ i ∧ i < (pages.length : Int) := by
  unfold jsIndex at h
  by_cases h0 : 0 ≤ i
  · rw [if_pos h0] at h
    obtain ⟨hlt, -⟩ := List.get?_eq_some.mp h
    omega
  · rw [if_neg h0] at h
    exact absurd h (by simp)

theorem jsIndex_isSome_of_valid {pages : List Page} {i : Int}
    (h0 : 0 ≤ i) (hlt : i < (pages.length : Int)) : ∃ p, jsIndex pages i = some p := by
  unfold jsIndex
  rw [if_pos h0]
  cases hq : pages.get? i.toNat with
  | none =>
    exfalso
    have := List.get?_eq_none.mp hq
    omega
  | some p => exact ⟨p, rfl⟩

theorem applyAnnotationStep_pageCount (doc : PdfDoc) (a : Annotation) :
    (applyAnnotationStep doc a).pages.length = doc.pages.length := by
  unfold applyAnnotationStep
  cases h : jsIndex doc.pages a.pageIndex
  · rfl
  · simp

theorem applyAnnotations_pageCount (doc : PdfDoc) (l : List Annotation) :
    (applyAnnotations doc l).pages.length = doc.pages.length := by
  induction l generalizing doc with
  | nil => rfl
  | cons a rest ih =>
    show (applyAnnotations (applyAnnotationStep doc a) rest).pages.length = _
    rw [ih, applyAnnotationStep_pageCount]

theorem applyAnnotationStep_oob (doc : PdfDoc) (a : Annotation)
    (h : ¬(0 ≤ a.pageIndex ∧ a.pageIndex < (doc.pages.length : Int))) :
    applyAnnotationStep doc a = doc := by
  unfold applyAnnotationStep
  rw [jsIndex_eq_none h]

theorem jsIndex_ofNat (pages : List Page) (k : Nat) :
    jsIndex pages (Int.ofNat k) = pages.get? k := by
  simp [jsIndex]

theorem copyPages_ok_of_valid (src : PdfDoc) (indices : List Int)
    (h : ∀ i ∈ indices, 0 ≤ i ∧ i < (src.pages.length : Int)) :
    copyPages src indices = .ok (indices.filterMap (jsIndex src.pages)) := by
  induction indices with
  | nil => rfl
  | cons i rest ih =>
    obtain ⟨h0, hlt⟩ := h i (List.mem_cons_self i rest)
    obtain ⟨p, hp⟩ := jsIndex_isSome_of_valid h0 hlt
    unfold copyPages
    rw [hp, ih (fun j hj => h j (List.mem_cons_of_mem i hj))]
    simp [List.filterMap_cons, hp, Except.map]

theorem filterMap_jsIndex_length (pages : List Page) (indices : List Int)
    (h : ∀ i ∈ indices, 0 ≤ i ∧ i < (pages.length : Int)) :
    (indices.filterMap (jsIndex pages)).length = indices.length := by
  induction indices with
  | nil => rfl
  | cons i rest ih =>
    obtain ⟨h0, hlt⟩ := h i (List.mem_cons_self i rest)
    obtain ⟨p, hp⟩ := jsIndex_isSome_of_valid h0 hlt
    simp [List.filterMap_cons, hp, ih (fun j hj => h j (List.mem_cons_of_mem i hj))]

theorem copyPages_error_of_invalid (src : PdfDoc) (indices : List Int)
    (h : ∃ i ∈ indices, ¬(0 ≤ i ∧ i < (src.pages.length : Int))) :
    ∃ e, copyPages src indices = .error e := by
  induction indices with
  | nil => simp at h
  | cons i rest ih =>
    unfold copyPages
    cases hj : jsIndex src.pages i with
    | none => exact ⟨"page index out of range", rfl⟩
    | some p =>
      obtain ⟨j, hmem, hinv⟩ := h
      rcases List.mem_cons.mp hmem with rfl | hmem'
      · exact absurd (jsIndex_some_valid hj) hinv
      · obtain ⟨e, he⟩ := ih ⟨j, hmem', hinv⟩
        refine ⟨e, ?_⟩
        rw [he]
        rfl

theorem mergePdfsCore_ok_of_valid (sources : List MergeSource)
    (h : ∀ s ∈ sources, ∀ i ∈ resolveSelection s, 0 ≤ i ∧ i < (s.bytes.pages.length : Int)) :
    mergePdfsCore sources =
      .ok ((sources.map
        (fun s => (resolveSelection s).filterMap (jsIndex s.bytes.pages))).flatten) := by
  induction sources with
  | nil => rfl
  | cons s rest ih =>
    unfold mergePdfsCore
    rw [copyPages_ok_of_valid s.bytes _ (h s (List.mem_cons_self s rest)),
      ih (fun t ht => h t (List.mem_cons_of_mem s ht))]
    rfl

theorem mergePdfsCore_error_of_invalid (sources : List MergeSource)
    (h : ∃ s ∈ sources, ∃ i ∈ resolveSelection s,
      ¬(0 ≤ i ∧ i < (s.bytes.pages.length : Int))) :
    ∃ e, mergePdfsCore sources = .error e := by
  induction sources with
  | nil => simp at h
  | cons s rest ih =>
    obtain ⟨t, hmem, hinv⟩ := h
    rcases List.mem_cons.mp hmem with rfl | hmem'
    · obtain ⟨e, he⟩ := copyPages_error_of_invalid t.bytes _ hinv
      refine ⟨e, ?_⟩
      unfold mergePdfsCore
      rw [he]
      rfl
    · cases hc : copyPages s.bytes (resolveSelection s) with
      | error e =>
        refine ⟨e, ?_⟩
        unfold mergePdfsCore
        rw [hc]
        rfl
      | ok ps =>
        obtain ⟨e, he⟩ := ih ⟨t, hmem', hinv⟩
        refine ⟨e, ?_⟩
        unfold mergePdfsCore
        rw [hc, he]
        rfl

theorem pagesToKeep_eq_map (n : Nat) (ds : List Int) :
    pagesToKeep n ds =
      ((List.range n).filter (fun k => !(ds.contains (Int.ofNat k)))).map Int.ofNat := by
  unfold pagesToKeep
  rw [List.filter_map]
  rfl

theorem pagesToKeep_valid (doc : PdfDoc) (ds : List Int) :
    ∀ i ∈ pagesToKeep doc.pageCount ds, 0 ≤ i ∧ i < (doc.pages.length : Int) := by
  intro i hi
  rw [pagesToKeep_eq_map] at hi
  obtain ⟨k, hk, rfl⟩ := List.mem_map.mp hi
  have := List.mem_range.mp (List.mem_filter.mp hk).1
  unfold PdfDoc.pageCount at this
  simp only [Int.ofNat_eq_coe]
  omega

/-! ## Claims about the Page Set Operations -/

/-- C1: with every resolved selection valid, `mergePdfs` succeeds and its
output pages are the concatenation, in source order, of each source's pages
at the indices of its resolved selection, in the verbatim order of that
selection (`resolveSelection` falls back to all pages in ascending order for
an empty `selectedPages`); the output page count is the sum of the resolved
selection lengths. -/
theorem mergePdfs_valid_selections (sources : List MergeSource)
    (h : ∀ s ∈ sources, ∀ i ∈ resolveSelection s, 0 ≤ i ∧ i < (s.bytes.pages.length : Int)) :
    mergePdfs sources =
      { success := true
        bytes := some { PdfDoc.create with pages :=
          (sources.map
            (fun s => (resolveSelection s).filterMap (jsIndex s.bytes.pages))).flatten } } ∧
    ∀ result : PdfDoc, (mergePdfs sources).bytes = some result →
      result.pages.length = (sources.map (fun s => (resolveSelection s).length)).sum := by
  have hcore := mergePdfsCore_ok_of_valid sources h
  have hmain : mergePdfs sources =
      { success := true
        bytes := some { PdfDoc.create with pages :=
          (sources.map
            (fun s => (resolveSelection s).filterMap (jsIndex s.bytes.pages))).flatten } } := by
    unfold mergePdfs
    rw [hcore]
  refine ⟨hmain, ?_⟩
  intro result hres
  rw [hmain] at hres
  obtain rfl := Option.some.inj hres
  show ((sources.map
    (fun s => (resolveSelection s).filterMap (jsIndex s.bytes.pages))).flatten).length = _
  rw [List.length_flatten, List.map_map]
  congr 1
  refine List.map_congr_left ?_
  intro s hs
  exact filterMap_jsIndex_length s.bytes.pages (resolveSelection s) (h s hs)

theorem mergePdfs_valid_selections_witness :
    (∀ s ∈ [srcA, srcB], ∀ i ∈ resolveSelection s,
      0 ≤ i ∧ i < (s.bytes.pages.length : Int)) ∧
    mergePdfs [srcA, srcB] =
      { success := true
        bytes := some { PdfDoc.create with pages :=
          ([srcA, srcB].map
            (fun s => (resolveSelection s).filterMap (jsIndex s.bytes.pages))).flatten } } ∧
    ∀ result : PdfDoc, (mergePdfs [srcA, srcB]).bytes = some result →
      result.pages.length = ([srcA, srcB].map (fun s => (resolveSelection s).length)).sum :=
  ⟨by decide,
    (mergePdfs_valid_selections [srcA, srcB] (by decide)).1,
    (mergePdfs_valid_selections [srcA, srcB] (by decide)).2⟩

/-- C5: Page Set Operations fail closed on out-of-range selections:
`mergePdfs` returns a failure result (no bytes, an error message) whenever
some source's resolved selection holds an out-of-range index, and
`reorderPages` / `extractPages` / `deletePages` propagate the failure as an
`Except.error` instead of returning a document (for `deletePages` the
resolved selection — its computed keep-list — is always in range, so that
case is vacuous, which the last conjunct makes explicit). -/
theorem pageSetOps_fail_closed :
    (∀ sources : List MergeSource,
      (∃ s ∈ sources, ∃ i ∈ resolveSelection s,
        ¬(0 ≤ i ∧ i < (s.bytes.pages.length : Int))) →
      (mergePdfs sources).success = false ∧ (mergePdfs sources).bytes = none ∧
        (mergePdfs sources).error ≠ none) ∧
    (∀ (doc : PdfDoc) (newOrder : List Int),
      (∃ i ∈ newOrder, ¬(0 ≤ i ∧ i < (doc.pages.length : Int))) →
      ∃ e, reorderPages doc newOrder = .error e) ∧
    (∀ (doc : PdfDoc) (pageIndices : List Int),
      (∃ i ∈ pageIndices, ¬(0 ≤ i ∧ i < (doc.pages.length : Int))) →
      ∃ e, extractPages doc pageIndices = .error e) ∧
    (∀ (doc : PdfDoc) (ds : List Int) (i : Int), i ∈ pagesToKeep doc.pageCount ds →
      0 ≤ i ∧ i < (doc.pages.length : Int)) := by
  refine ⟨?_, ?_, ?_, ?_⟩
  · intro sources hinv
    obtain ⟨e, he⟩ := mergePdfsCore_error_of_invalid sources hinv
    unfold mergePdfs
    rw [he]
    exact ⟨rfl, rfl, by simp⟩
  · intro doc newOrder hinv
    obtain ⟨e, he⟩ := copyPages_error_of_invalid doc newOrder hinv
    refine ⟨e, ?_⟩
    unfold reorderPages
    rw [he]
    rfl
  · intro doc pageIndices hinv
    obtain ⟨e, he⟩ := copyPages_error_of_invalid doc pageIndices hinv
    refine ⟨e, ?_⟩
    unfold extractPages
    rw [he]
    rfl
  · intro doc ds i hi
    exact pagesToKeep_valid doc ds i hi

theorem pageSetOps_fail_closed_witness :
    ((mergePdfs [srcBad]).success = false ∧ (mergePdfs [srcBad]).bytes = none ∧
      (mergePdfs [srcBad]).error ≠ none) ∧
    (∃ e, reorderPages doc3 [3] = .error e) ∧
    (∃ e, extractPages doc3 [-1] = .error e) ∧
    (0 ≤ (1 : Int) ∧ (1 : Int) < (doc3.pages.length : Int)) :=
  ⟨pageSetOps_fail_closed.1 [srcBad] (by decide),
    pageSetOps_fail_closed.2.1 doc3 [3] (by decide),
    pageSetOps_fail_closed.2.2.1 doc3 [-1] (by decide),
    pageSetOps_fail_closed.2.2.2 doc3 [0, 2] 1 (by decide)⟩

/-- C9: `deletePages` never fails because of out-of-range deletion indices:
entries of the deletion list outside `[0, pageCount)` are ignored (filtering
the deletion list to its in-range entries leaves the keep-list unchanged,
and the keep-list holds only in-range indices), the operation succeeds and
returns the pages not listed for deletion in ascending index order — an
empty document when the deletion list covers every page. -/
theorem deletePages_tolerates_oob (doc : PdfDoc) (ds : List Int) :
    pagesToKeep doc.pageCount ds =
      pagesToKeep doc.pageCount
        (ds.filter (fun i => decide (0 ≤ i ∧ i < (doc.pageCount : Int)))) ∧
    (∀ i ∈ pagesToKeep doc.pageCount ds, 0 ≤ i ∧ i < (doc.pages.length : Int)) ∧
    deletePages doc ds =
      .ok { PdfDoc.create with pages :=
        ((List.range doc.pages.length).filter
          (fun k => !(ds.contains (Int.ofNat k)))).filterMap doc.pages.get? } ∧
    ((∀ k, k < doc.pages.length → (Int.ofNat k) ∈ ds) →
      deletePages doc ds = .ok { PdfDoc.create with pages := [] }) := by
  have hkeepNone : (∀ k, k < doc.pages.length → (Int.ofNat k) ∈ ds) →
      pagesToKeep doc.pageCount ds = [] := by
    intro hall
    rw [pagesToKeep_eq_map]
    have hnil : (List.range doc.pageCount).filter (fun k => !(ds.contains (Int.ofNat k))) = [] := by
      rw [List.filter_eq_nil_iff]
      intro k hk
      have hmem : (Int.ofNat k) ∈ ds := hall k (List.mem_range.mp hk)
      rw [Int.ofNat_eq_coe] at hmem
      simp [hmem]
    rw [hnil]
    rfl
  have hok : deletePages doc ds =
      .ok { PdfDoc.create with pages :=
        (pagesToKeep doc.pageCount ds).filterMap (jsIndex doc.pages) } := by
    unfold deletePages extractPages
    rw [copyPages_ok_of_valid doc _ (pagesToKeep_valid doc ds)]
    rfl
  refine ⟨?_, pagesToKeep_valid doc ds, ?_, ?_⟩
  · rw [pagesToKeep_eq_map, pagesToKeep_eq_map]
    congr 1
    refine List.filter_congr ?_
    intro k hk
    have hklt := List.mem_range.mp hk
    by_cases hmem : (Int.ofNat k) ∈ ds
    · have hmem' : (Int.ofNat k) ∈
          ds.filter (fun i => decide (0 ≤ i ∧ i < (doc.pageCount : Int))) := by
        refine List.mem_filter.mpr ⟨hmem, ?_⟩
        simp only [Int.ofNat_eq_coe, decide_eq_true_eq]
        omega
      simp [hmem, hmem']
      exact fun hge => absurd hklt (Nat.not_lt.mpr hge)
    · have hmem' : (Int.ofNat k) ∉
          ds.filter (fun i => decide (0 ≤ i ∧ i < (doc.pageCount : Int))) := by
        intro hcontra
        exact hmem (List.mem_filter.mp hcontra).1
      simp [hmem, hmem']
      exact fun hge => absurd hklt (Nat.not_lt.mpr hge)
  · rw [hok, pagesToKeep_eq_map, List.filterMap_map]
    have hfun : jsIndex doc.pages ∘ Int.ofNat = doc.pages.get? := by
      funext k
      exact jsIndex_ofNat doc.pages k
    rw [hfun]
    rfl
  · intro hall
    rw [hok, hkeepNone hall]
    rfl

theorem deletePages_tolerates_oob_witness :
    deletePages doc3 [0, 99, 1, -5, 2] = .ok { PdfDoc.create with pages := [] } :=
  (deletePages_tolerates_oob doc3 [0, 99, 1, -5, 2]).2.2.2 (by decide)

theorem range_filterMap_get? (l : List Page) (k : Nat) :
    (List.range k).filterMap l.get? = l.take k := by
  induction k with
  | zero => simp
  | succ n ih =>
    rw [List.range_succ, List.filterMap_append, ih, List.take_succ]
    congr 1
    simp only [List.filterMap_cons, List.filterMap_nil, List.get?_eq_getElem?]
    cases h : l[n]? <;> simp [h]

theorem rangeInt_filterMap_jsIndex (l : List Page) :
    ((List.range l.length).map Int.ofNat).filterMap (jsIndex l) = l := by
  rw [List.filterMap_map]
  have hfun : jsIndex l ∘ Int.ofNat = l.get? := by
    funext k
    exact jsIndex_ofNat l k
  rw [hfun, range_filterMap_get?, List.take_length]

theorem mem_rangeInt {n : Nat} {i : Int} :
    i ∈ (List.range n).map Int.ofNat ↔ 0 ≤ i ∧ i < (n : Int) := by
  simp only [List.mem_map, List.mem_range, Int.ofNat_eq_coe]
  constructor
  · rintro ⟨k, hk, rfl⟩
    omega
  · rintro ⟨h0, hlt⟩
    exact ⟨i.toNat, by omega, by omega⟩

theorem mem_pagesToKeep {n : Nat} {ds : List Int} {i : Int} :
    i ∈ pagesToKeep n ds ↔ i ∈ (List.range n).map Int.ofNat ∧ i ∉ ds := by
  unfold pagesToKeep
  rw [List.mem_filter]
  simp

theorem rangeInt_nodup (n : Nat) : ((List.range n).map Int.ofNat).Nodup :=
  (List.nodup_range n).map (fun _ _ hab => Int.ofNat.inj hab)

theorem pagesToKeep_nodup (n : Nat) (ds : List Int) : (pagesToKeep n ds).Nodup :=
  (rangeInt_nodup n).filter _

/-- A valid duplicate-free selection together with the keep-list of its
complement enumerates every page index exactly once. -/
theorem selection_complement_perm (doc : PdfDoc) (s : List Int)
    (hval : ∀ i ∈ s, 0 ≤ i ∧ i < (doc.pages.length : Int)) (hnd : s.Nodup) :
    (s ++ pagesToKeep doc.pageCount s).Perm
      ((List.range doc.pages.length).map Int.ofNat) := by
  have hdisj : s.Disjoint (pagesToKeep doc.pageCount s) := by
    intro i hiS hiK
    exact (mem_pagesToKeep.mp hiK).2 hiS
  have hndAll : (s ++ pagesToKeep doc.pageCount s).Nodup :=
    List.nodup_append.mpr ⟨hnd, pagesToKeep_nodup _ _, hdisj⟩
  rw [List.perm_ext_iff_of_nodup hndAll (rangeInt_nodup _)]
  intro i
  constructor
  · intro hi
    rcases List.mem_append.mp hi with hiS | hiK
    · exact mem_rangeInt.mpr (hval i hiS)
    · exact (mem_pagesToKeep.mp hiK).1
  · intro hi
    by_cases hiS : i ∈ s
    · exact List.mem_append.mpr (Or.inl hiS)
    · exact List.mem_append.mpr (Or.inr (mem_pagesToKeep.mpr ⟨hi, hiS⟩))

/-- C2: `deletePages(doc, S)` is `extractPages(doc, K)` for `K` the
ascending enumeration of `[0, pageCount)` with the members of `S` removed;
consequently, for a valid duplicate-free `S`, the extracted and remaining
documents partition the original page list (their concatenation is a
permutation of it), and — pages being distinct objects, modelled as a
structurally duplicate-free page list — their page sets are disjoint. -/
theorem deletePages_is_complement_extract (doc : PdfDoc) (s : List Int) :
    deletePages doc s =
      extractPages doc (((List.range doc.pageCount).map Int.ofNat).filter
        (fun i => !(s.contains i))) ∧
    (∀ (hval : ∀ i ∈ s, 0 ≤ i ∧ i < (doc.pages.length : Int)) (hnd : s.Nodup),
      ∃ extracted kept,
        extractPages doc s = .ok extracted ∧ deletePages doc s = .ok kept ∧
        (extracted.pages ++ kept.pages).Perm doc.pages ∧
        (doc.pages.Nodup → extracted.pages.Disjoint kept.pages)) := by
  constructor
  · rfl
  · intro hval hnd
    have hE : extractPages doc s =
        .ok { PdfDoc.create with pages := s.filterMap (jsIndex doc.pages) } := by
      unfold extractPages
      rw [copyPages_ok_of_valid doc s hval]
      rfl
    have hK : deletePages doc s =
        .ok { PdfDoc.create with pages :=
          (pagesToKeep doc.pageCount s).filterMap (jsIndex doc.pages) } := by
      unfold deletePages extractPages
      rw [copyPages_ok_of_valid doc _ (pagesToKeep_valid doc s)]
      rfl
    have hperm : (s.filterMap (jsIndex doc.pages) ++
        (pagesToKeep doc.pageCount s).filterMap (jsIndex doc.pages)).Perm doc.pages := by
      rw [← List.filterMap_append]
      have hp := (selection_complement_perm doc s hval hnd).filterMap (jsIndex doc.pages)
      rwa [rangeInt_filterMap_jsIndex] at hp
    refine ⟨_, _, hE, hK, hperm, ?_⟩
    intro hndPages
    have hcat := hperm.nodup_iff.mpr hndPages
    exact (List.nodup_append.mp hcat).2.2

theorem deletePages_is_complement_extract_witness :
    ∃ extracted kept,
      extractPages doc3 [1] = .ok extracted ∧ deletePages doc3 [1] = .ok kept ∧
      (extracted.pages ++ kept.pages).Perm doc3.pages ∧
      (doc3.pages.Nodup → extracted.pages.Disjoint kept.pages) :=
  (deletePages_is_complement_extract doc3 [1]).2 (by decide) (by decide)

/-! ## Claims about the annotation compositor -/

/-- C3: for every baked highlight the compositor converts the
top-left-origin/y-down rectangle into document coordinates with
`documentY = pageHeight - rect.y - rect.height`; on the spec's example —
rect `{x:10, y:20, width:100, height:30}` on a page of height 792 — the
rectangle is drawn with its bottom edge (its `y`, in the y-up document
space) at 742. -/
theorem highlight_coordinate_conversion :
    (∀ (page : Page) (a : Annotation) (color : RgbColor),
      (drawHighlight page a page.height color).content =
        page.content ++
          [DrawOp.rectFill a.rect.x (page.height - a.rect.y - a.rect.height)
            a.rect.width a.rect.height color a.opacity]) ∧
    applyAnnotations { pages := [letterPage] } [demoHighlight] =
      { pages := [{ letterPage with content :=
          [DrawOp.rectFill 10 742 100 30 (hexToRgb "#ffff00") (1 / 2)] }] } := by
  constructor
  · intro page a color
    rfl
  · have harith : (792 : ℚ) - 20 - 30 = 742 := by norm_num
    rw [show applyAnnotations { pages := [letterPage] } [demoHighlight] =
      { pages := [{ letterPage with content :=
          [DrawOp.rectFill 10 ((792 : ℚ) - 20 - 30) 100 30 (hexToRgb "#ffff00") (1 / 2)] }] }
      from rfl, harith]

/-- C4: an annotation whose `pageIndex` is at least the page count is
silently skipped by `applyAnnotations`: the pass never fails (it is a total
function of the document), the skipped annotation alters no page, and the
remaining annotations are applied exactly as if it were absent. -/
theorem applyAnnotations_skips_oob_target (doc : PdfDoc)
    (pre post : List Annotation) (a : Annotation)
    (h : (doc.pages.length : Int) ≤ a.pageIndex) :
    applyAnnotations doc (pre ++ a :: post) = applyAnnotations doc (pre ++ post) := by
  unfold applyAnnotations
  rw [List.foldl_append, List.foldl_append]
  show List.foldl _ (applyAnnotationStep (List.foldl applyAnnotationStep doc pre) a) post = _
  have hlen : (List.foldl applyAnnotationStep doc pre).pages.length = doc.pages.length :=
    applyAnnotations_pageCount doc pre
  rw [applyAnnotationStep_oob _ a (by rw [hlen]; omega)]

theorem applyAnnotations_skips_oob_target_witness :
    (doc3.pages.length : Int) ≤ 5 ∧
    applyAnnotations doc3
        ([demoHighlight] ++ { demoHighlight with pageIndex := 5, id := "oob" } :: []) =
      applyAnnotations doc3 ([demoHighlight] ++ []) :=
  ⟨by decide,
    applyAnnotations_skips_oob_target doc3 [demoHighlight] []
      { demoHighlight with pageIndex := 5, id := "oob" } (by decide)⟩

/-- C10: an annotation with any invalid page index — negative values
included, not only indices past the end — is silently skipped: baking a
list is the same as baking only its validly-targeted members. -/
theorem applyAnnotations_eq_filter_valid (doc : PdfDoc) (annotations : List Annotation) :
    applyAnnotations doc annotations =
      applyAnnotations doc (annotations.filter
        (fun a => decide (0 ≤ a.pageIndex ∧ a.pageIndex < (doc.pages.length : Int)))) := by
  induction annotations generalizing doc with
  | nil => rfl
  | cons a rest ih =>
    by_cases h : 0 ≤ a.pageIndex ∧ a.pageIndex < (doc.pages.length : Int)
    · rw [List.filter_cons_of_pos (by simpa using h)]
      show applyAnnotations (applyAnnotationStep doc a) rest =
        applyAnnotations (applyAnnotationStep doc a) (rest.filter
          (fun a' => decide (0 ≤ a'.pageIndex ∧ a'.pageIndex < (doc.pages.length : Int))))
      have hrec := ih (applyAnnotationStep doc a)
      simp only [applyAnnotationStep_pageCount] at hrec
      exact hrec
    · rw [List.filter_cons_of_neg (by simpa using h)]
      show applyAnnotations (applyAnnotationStep doc a) rest = _
      rw [applyAnnotationStep_oob doc a h]
      exact ih doc

/-! ## Claims about compression -/

theorem jsRound_nonpos {q : ℚ} (h : q ≤ 0) : jsRound q ≤ 0 := by
  unfold jsRound
  have hlt : ⌊q + 1 / 2⌋ < 1 := Int.floor_lt.mpr (by push_cast; linarith)
  omega

theorem compressHandler_success_eq (inputSize : Nat) (level : CompressionLevel) (os : Nat) :
    compressHandler inputSize level ⟨none, none, os⟩ =
      { success := true
        bytes := some os
        originalSize := inputSize
        compressedSize := os
        reductionPercent := max 0 (jsRound ((1 - (os : ℚ) / (inputSize : ℚ)) * 100)) } := rfl

theorem compressPdf_ok_bytes (input : PdfDoc) (inputSize : Nat) (level : CompressionLevel)
    (fe : Option JsThrown) (ss : Nat) :
    (compressPdf input inputSize level ⟨none, fe, ss⟩).bytes =
      some (if 75 ≤ level then
          flattenFormsStep
            (if 50 ≤ level then stripMetadata input else updateInfoDict input) ⟨none, fe, ss⟩
        else if 50 ≤ level then stripMetadata input else updateInfoDict input) := by
  unfold compressPdf
  by_cases h50 : 50 ≤ level
  · have hlt : ¬ level < 50 := Nat.not_lt.mpr h50
    by_cases h75 : 75 ≤ level <;> simp [h50, h75, hlt]
  · have hlt : level < 50 := Nat.not_le.mp h50
    have h75 : ¬ 75 ≤ level := fun h => h50 (le_trans (by norm_num) h)
    simp [h50, h75, hlt]

theorem flattenFormsStep_preserves_metadata (d : PdfDoc) (env : PdfLibEnv) :
    (flattenFormsStep d env).title = d.title ∧
    (flattenFormsStep d env).author = d.author ∧
    (flattenFormsStep d env).subject = d.subject ∧
    (flattenFormsStep d env).keywords = d.keywords ∧
    (flattenFormsStep d env).producer = d.producer ∧
    (flattenFormsStep d env).creator = d.creator := by
  unfold flattenFormsStep
  cases env.flattenError with
  | none => by_cases h : d.formFieldCount > 0 <;> simp [h]
  | some e => simp

/-- C6 counterexample: a Ghostscript invocation that throws an `Error`
carrying the empty message yields a failure result whose attached error
message is empty — the code forwards `error.message` verbatim — refuting
the claim's "non-empty error message". -/
theorem compress_failure_empty_message :
    (compressHandler 10 75 { runError := some (.error "") }).success = false ∧
    (compressHandler 10 75 { runError := some (.error "") }).error = some "" :=
  ⟨rfl, rfl⟩

/-- C6 (amended): compression never throws — both passes are total
functions returning a `CompressionResult` — and on any failure the result
has `success` false, `originalSize` and `compressedSize` both equal to the
input byte length, `reductionPercent` 0, and an error message that is
always present: the thrown `Error`'s message (forwarded even when empty),
or a non-empty default when the thrown value is not an `Error`. -/
theorem compress_failure_result :
    (∀ (inputSize : Nat) (level : CompressionLevel) (env : GsEnv),
      env.runError.isSome ∨ (env.runError = none ∧ env.readError.isSome) →
      ∃ e, (env.runError = some e ∨ env.readError = some e) ∧
        compressHandler inputSize level env =
          { success := false
            originalSize := inputSize
            compressedSize := inputSize
            reductionPercent := 0
            error := some (e.messageOr
              "Failed to compress PDF. Make sure Ghostscript is installed.") }) ∧
    (∀ (input : PdfDoc) (inputSize : Nat) (level : CompressionLevel)
        (env : PdfLibEnv) (e : JsThrown),
      env.loadError = some e →
      compressPdf input inputSize level env =
        { success := false
          originalSize := inputSize
          compressedSize := inputSize
          reductionPercent := 0
          error := some (e.messageOr "Unknown error during compression") }) := by
  constructor
  · intro inputSize level env h
    obtain ⟨re, rd, os⟩ := env
    cases re with
    | some e => exact ⟨e, Or.inl rfl, rfl⟩
    | none =>
      cases rd with
      | some e => exact ⟨e, Or.inr rfl, rfl⟩
      | none => simp at h
  · intro input inputSize level env e he
    obtain ⟨le, fe, ss⟩ := env
    obtain rfl : le = some e := he
    rfl

theorem compress_failure_result_witness :
    (∃ e, ((some JsThrown.other = some e) ∨ ((none : Option JsThrown) = some e)) ∧
      compressHandler 10485760 75 { runError := some .other } =
        { success := false
          originalSize := 10485760
          compressedSize := 10485760
          reductionPercent := 0
          error := some (e.messageOr
            "Failed to compress PDF. Make sure Ghostscript is installed.") }) ∧
    compressPdf doc3 77 25 { loadError := some (.error "Failed to parse PDF document") } =
      { success := false
        originalSize := 77
        compressedSize := 77
        reductionPercent := 0
        error := some ((JsThrown.error "Failed to parse PDF document").messageOr
          "Unknown error during compression") } :=
  ⟨compress_failure_result.1 10485760 75 { runError := some .other } (Or.inl rfl),
    compress_failure_result.2 doc3 77 25
      { loadError := some (.error "Failed to parse PDF document") } _ rfl⟩

/-- C7: on every successful path `reductionPercent` is
`round((1 − compressedSize/originalSize) × 100)` clamped below at 0
(`round` is JavaScript's half-up rounding), on every path it is never
negative, and a compression that does not shrink a non-empty input reports
exactly 0. -/
theorem reductionPercent_never_negative :
    (∀ (inputSize : Nat) (level : CompressionLevel) (env : GsEnv),
      0 ≤ (compressHandler inputSize level env).reductionPercent) ∧
    (∀ (input : PdfDoc) (inputSize : Nat) (level : CompressionLevel) (env : PdfLibEnv),
      0 ≤ (compressPdf input inputSize level env).reductionPercent) ∧
    (∀ (inputSize : Nat) (level : CompressionLevel) (env : GsEnv),
      env.runError = none → env.readError = none →
      (compressHandler inputSize level env).reductionPercent =
        max 0 (jsRound ((1 - (env.outputSize : ℚ) / (inputSize : ℚ)) * 100))) ∧
    (∀ (input : PdfDoc) (inputSize : Nat) (level : CompressionLevel) (env : PdfLibEnv),
      env.loadError = none →
      (compressPdf input inputSize level env).reductionPercent =
        max 0 (jsRound ((1 - (env.savedSize : ℚ) / (inputSize : ℚ)) * 100))) ∧
    (∀ (inputSize : Nat) (level : CompressionLevel) (env : GsEnv),
      env.runError = none → env.readError = none →
      0 < inputSize → inputSize ≤ env.outputSize →
      (compressHandler inputSize level env).reductionPercent = 0) := by
  have hnoshrink : ∀ (n os : Nat), 0 < n → n ≤ os →
      max 0 (jsRound ((1 - (os : ℚ) / (n : ℚ)) * 100)) = 0 := by
    intro n os hn hle
    refine max_eq_left (jsRound_nonpos ?_)
    have hdiv : (1 : ℚ) ≤ (os : ℚ) / (n : ℚ) := by
      rw [one_le_div (by exact_mod_cast hn)]
      exact_mod_cast hle
    nlinarith
  refine ⟨?_, ?_, ?_, ?_, ?_⟩
  · intro inputSize level env
    obtain ⟨re, rd, os⟩ := env
    cases re with
    | some e => simp [compressHandler]
    | none =>
      cases rd with
      | some e => simp [compressHandler]
      | none =>
        rw [compressHandler_success_eq]
        exact le_max_left 0 _
  · intro input inputSize level env
    obtain ⟨le, fe, ss⟩ := env
    cases le with
    | some e => simp [compressPdf]
    | none =>
      show 0 ≤ max 0 _
      exact le_max_left 0 _
  · intro inputSize level env hre hrd
    obtain ⟨re, rd, os⟩ := env
    obtain rfl : re = none := hre
    obtain rfl : rd = none := hrd
    rw [compressHandler_success_eq]
  · intro input inputSize level env hle
    obtain ⟨le, fe, ss⟩ := env
    obtain rfl : le = none := hle
    rfl
  · intro inputSize level env hre hrd hn hle
    obtain ⟨re, rd, os⟩ := env
    obtain rfl : re = none := hre
    obtain rfl : rd = none := hrd
    rw [compressHandler_success_eq]
    exact hnoshrink inputSize os hn hle

theorem reductionPercent_never_negative_witness :
    (compressHandler 100 50 ⟨none, none, 120⟩).reductionPercent =
      max 0 (jsRound ((1 - ((120 : Nat) : ℚ) / ((100 : Nat) : ℚ)) * 100)) ∧
    (compressHandler 100 50 ⟨none, none, 120⟩).reductionPercent = 0 :=
  ⟨reductionPercent_never_negative.2.2.1 100 50 ⟨none, none, 120⟩ rfl rfl,
    reductionPercent_never_negative.2.2.2.2 100 50 ⟨none, none, 120⟩ rfl rfl
      (by decide) (by decide)⟩

/-- A document carrying third-party metadata, for the level-25 check. -/
def docProd : PdfDoc :=
  { pages := [letterPage]
    title := some "Report"
    producer := some "Acrobat Distiller"
    creator := some "Word" }

/-- C8 counterexample: at level 25 metadata is not left intact — the load
runs with `updateMetadata` enabled (`level < 50`), so pdf-lib's
`updateInfoDict()` overwrites the saved document's producer with the
library signature instead of keeping the input's producer. -/
theorem compressPdf_level25_metadata_not_intact :
    ((compressPdf docProd 100 25 { savedSize := 40 }).bytes.map PdfDoc.producer) =
      some (some pdfLibSignature) ∧
    docProd.producer = some "Acrobat Distiller" ∧
    pdfLibSignature ≠ "Acrobat Distiller" :=
  ⟨rfl, rfl, by decide⟩

/-- C8 (amended): with a loadable document, the in-process pass always
succeeds; at level ≥ 50 the saved document's title/author/subject/keywords/
producer/creator are stripped (set to empty); at level ≥ 75 a present form
is flattened when flattening does not throw, and a missing or unflattenable
form never causes a failure; at level 25 the pages, title, author, subject
and keywords are left intact, but — the load running with `updateMetadata`
enabled (`level < 50`) — the producer is overwritten with the pdf-lib
signature and a missing creator is filled in with it. -/
theorem compressPdf_level_effects (input : PdfDoc) (inputSize : Nat)
    (level : CompressionLevel) (env : PdfLibEnv) (hload : env.loadError = none) :
    (compressPdf input inputSize level env).success = true ∧
    (∀ doc : PdfDoc, 50 ≤ level → (compressPdf input inputSize level env).bytes = some doc →
      doc.title = some "" ∧ doc.author = some "" ∧ doc.subject = some "" ∧
      doc.keywords = [] ∧ doc.producer = some "" ∧ doc.creator = some "") ∧
    (75 ≤ level → env.flattenError = none → 0 < input.formFieldCount →
      ∃ doc : PdfDoc, (compressPdf input inputSize level env).bytes = some doc ∧
        doc.formFlattened = true ∧ doc.formFieldCount = 0) ∧
    (level = 25 → (compressPdf input inputSize level env).bytes =
      some { input with
        producer := some pdfLibSignature
        creator := if input.creator = none then some pdfLibSignature else input.creator }) := by
  obtain ⟨le, fe, ss⟩ := env
  obtain rfl : le = none := hload
  refine ⟨rfl, ?_, ?_, ?_⟩
  · intro doc h50 hbytes
    rw [compressPdf_ok_bytes, if_pos h50] at hbytes
    by_cases h75 : 75 ≤ level
    · rw [if_pos h75] at hbytes
      obtain rfl := Option.some.inj hbytes
      have hmeta := flattenFormsStep_preserves_metadata (stripMetadata input) ⟨none, fe, ss⟩
      simp only [hmeta.1, hmeta.2.1, hmeta.2.2.1, hmeta.2.2.2.1, hmeta.2.2.2.2.1,
        hmeta.2.2.2.2.2]
      exact ⟨rfl, rfl, rfl, rfl, rfl, rfl⟩
    · rw [if_neg h75] at hbytes
      obtain rfl := Option.some.inj hbytes
      exact ⟨rfl, rfl, rfl, rfl, rfl, rfl⟩
  · intro h75 hfe hfields
    obtain rfl : fe = none := hfe
    have h50 : 50 ≤ level := le_trans (by norm_num) h75
    refine ⟨flattenFormsStep (stripMetadata input) ⟨none, none, ss⟩, ?_, ?_, ?_⟩
    · rw [compressPdf_ok_bytes, if_pos h75, if_pos h50]
    · simp [flattenFormsStep, stripMetadata, hfields]
    · simp [flattenFormsStep, stripMetadata, hfields]
  · intro h25
    subst h25
    rw [compressPdf_ok_bytes]
    rfl

theorem compressPdf_level_effects_witness :
    (compressPdf
        { pages := [letterPage], title := some "T", author := some "A", formFieldCount := 2 }
        100 75 { savedSize := 40 }).success = true ∧
    (∃ doc : PdfDoc,
      (compressPdf
        { pages := [letterPage], title := some "T", author := some "A", formFieldCount := 2 }
        100 75 { savedSize := 40 }).bytes = some doc ∧
      doc.formFlattened = true ∧ doc.formFieldCount = 0) ∧
    (compressPdf docProd 100 25 { savedSize := 40 }).bytes =
      some { docProd with
        producer := some pdfLibSignature
        creator := if docProd.creator = none then some pdfLibSignature else docProd.creator } :=
  ⟨(compressPdf_level_effects
      { pages := [letterPage], title := some "T", author := some "A", formFieldCount := 2 }
      100 75 { savedSize := 40 } rfl).1,
    (compressPdf_level_effects
      { pages := [letterPage], title := some "T", author := some "A", formFieldCount := 2 }
      100 75 { savedSize := 40 } rfl).2.2.1 (by decide) rfl (by decide),
    (compressPdf_level_effects docProd 100 25 { savedSize := 40 } rfl).2.2.2 rfl⟩

end PdfEditor
